import Mathlib

/-!
Shallow embedding of `src/src/nacltoons/src/physics_layer.cc`, the
drawing-to-physics gameplay layer: coordinate conversion, stroke capture,
shape building (`CreatePhysicsBody`), body bounds (`CalcBodyBounds`),
sprite anchor computation (`CreatePhysicsSprite`), and the debug toggle
(`ToggleDebug`).  Floating-point scalars are modelled as real numbers.
-/

noncomputable section

/-- Screen- or world-space 2D point (`CCPoint` / `b2Vec2`). -/
abbrev Point : Type := ℝ × ℝ

/-- Pixels-to-meters ratio, `#define PTM_RATIO 32` (line 9). -/
def PTM_RATIO : ℝ := 32

/-- Macro `SCREEN_TO_WORLD(n) ((n) / PTM_RATIO)` (line 10). -/
def SCREEN_TO_WORLD (n : ℝ) : ℝ := n / PTM_RATIO

/-- Macro `WORLD_TO_SCREEN(n) ((n) * PTM_RATIO)` (line 11). -/
def WORLD_TO_SCREEN (n : ℝ) : ℝ := n * PTM_RATIO

/-- The largest finite single-precision float, which `CalcBodyBounds` uses as
the initial `minX`/`minY` seed (`FLT_MAX`, lines 231 and 233). -/
def FLT_MAX : ℝ := 340282346638528859811704183484516925440

/-- Modelled from the spec: `euclideanDistance` between two points.  This is
cocos2d's `ccpDistance`, whose definition is not part of this repository. -/
def ccpDistance (a b : Point) : ℝ :=
  Real.sqrt ((a.1 - b.1) ^ 2 + (a.2 - b.2) ^ 2)

/-- Modelled from the spec: the C library function `atan2(y, x)`, rendered as
the argument of the complex number `x + y*i`; the spec only uses it as the
rotation angle of an oriented box (line 396). -/
def atan2 (y x : ℝ) : ℝ := Complex.arg ⟨x, y⟩

/-- Modelled from the spec: a Box2D rigid-body transform (a rotation stored as
sine and cosine plus a translation), the value of `body->GetTransform()`;
Box2D itself is an external collaborator in the spec. -/
structure B2Transform where
  px : ℝ
  py : ℝ
  s : ℝ
  c : ℝ

/-- Modelled from the spec: Box2D `b2Mul(xf, v)` — rotate `v`, then
translate (used at lines 242 and 258). -/
def b2Mul (T : B2Transform) (v : Point) : Point :=
  (T.c * v.1 - T.s * v.2 + T.px, T.s * v.1 + T.c * v.2 + T.py)

/-- A fixture shape: a circle (`b2CircleShape`, radius plus local center) or
the oriented box stored by `b2PolygonShape::SetAsBox` (half-width,
half-height, local center, angle) — the tagged union the spec's design notes
prescribe for the circle/polygon type-tag dispatch. -/
inductive Fixture where
  | circle (radius : ℝ) (cx : ℝ) (cy : ℝ)
  | box (hx : ℝ) (hy : ℝ) (cx : ℝ) (cy : ℝ) (angle : ℝ)

/-- Discriminator for circle fixtures. -/
def Fixture.isCircle : Fixture → Bool
  | .circle _ _ _ => true
  | .box _ _ _ _ _ => false

/-- Discriminator for oriented-box fixtures. -/
def Fixture.isBox : Fixture → Bool
  | .circle _ _ _ => false
  | .box _ _ _ _ _ => true

/-- Full width of an oriented-box fixture (twice its half-width); 0 for a
circle. -/
def Fixture.boxWidth : Fixture → ℝ
  | .circle _ _ _ => 0
  | .box hx _ _ _ _ => 2 * hx

/-- Modelled from the spec: the four corner vertices that Box2D
`SetAsBox(hx, hy, center, angle)` stores in `m_vertices` (Box2D is not part
of this repository): the corners `(±hx, ±hy)` rotated by `angle` and
translated by `center`, exactly the "4 transformed corner vertices" the
spec's BoundsCalculator walks. -/
def boxVertices (hx hy cx cy angle : ℝ) : List Point :=
  [(-hx, -hy), (hx, -hy), (hx, hy), (-hx, hy)].map fun v =>
    (cx + Real.cos angle * v.1 - Real.sin angle * v.2,
     cy + Real.sin angle * v.1 + Real.cos angle * v.2)

/-- A rigid body as `CalcBodyBounds` sees it: its current world transform and
its fixture list. -/
structure B2Body where
  xf : B2Transform
  fixtures : List Fixture

/-- Cocos2d `CCRect`: origin (x, y) and size (w, h). -/
structure CCRect where
  x : ℝ
  y : ℝ
  w : ℝ
  h : ℝ

/-- Running extremes of `CalcBodyBounds` (`minX`, `maxX`, `minY`, `maxY`). -/
structure BBounds where
  minX : ℝ
  maxX : ℝ
  minY : ℝ
  maxY : ℝ

/-- One conditional update of the running extremes, i.e. the `if` chains of
`CalcBodyBounds` (lines 243-250 and 259-266). -/
def accExt (b : BBounds) (lx hx ly hy : ℝ) : BBounds :=
  ⟨min b.minX lx, max b.maxX hx, min b.minY ly, max b.maxY hy⟩

/-- Per-vertex update in the polygon branch of `CalcBodyBounds`
(lines 257-267): transform the vertex, then update all four extremes. -/
def vertexStep (xf : B2Transform) (acc : BBounds) (v : Point) : BBounds :=
  let w := b2Mul xf v
  accExt acc w.1 w.1 w.2 w.2

/-- Per-fixture update of `CalcBodyBounds` (lines 237-269): a circle expands
the extremes by `center ± radius`, a polygon by each transformed vertex. -/
def boundsStep (xf : B2Transform) (acc : BBounds) (f : Fixture) : BBounds :=
  match f with
  | .circle radius cx cy =>
      let c := b2Mul xf (cx, cy)
      accExt acc (c.1 - radius) (c.1 + radius) (c.2 - radius) (c.2 + radius)
  | .box hx hy cx cy angle => (boxVertices hx hy cx cy angle).foldl (vertexStep xf) acc

/-- The fixture loop of `CalcBodyBounds`, seeded with
`minX = FLT_MAX, maxX = 0, minY = FLT_MAX, maxY = 0` (lines 231-269). -/
def boundsOfBody (body : B2Body) : BBounds :=
  body.fixtures.foldl (boundsStep body.xf) ⟨FLT_MAX, 0, FLT_MAX, 0⟩

/-- `CalcBodyBounds` (lines 228-280): fold the extremes over the fixtures,
convert to screen pixels, and build the rectangle with the Y flip
`remY = s.height - maxY`.  `winH` stands for the director's window height. -/
def CalcBodyBounds (winH : ℝ) (body : B2Body) : CCRect :=
  let b := boundsOfBody body
  let maxX := WORLD_TO_SCREEN b.maxX
  let minX := WORLD_TO_SCREEN b.minX
  let maxY := WORLD_TO_SCREEN b.maxY
  let minY := WORLD_TO_SCREEN b.minY
  ⟨minX, winH - maxY, maxX - minX, maxY - minY⟩

/-- Lower x-extents one fixture contributes to the tight bounding box, as the
spec's BoundsCalculator describes them (circle: `center.x - radius`;
oriented box: the x coordinate of each transformed corner). -/
def specXLows (xf : B2Transform) : Fixture → List ℝ
  | .circle radius cx cy => [(b2Mul xf (cx, cy)).1 - radius]
  | .box hx hy cx cy angle => (boxVertices hx hy cx cy angle).map fun v => (b2Mul xf v).1

/-- Upper x-extents one fixture contributes to the tight bounding box. -/
def specXHighs (xf : B2Transform) : Fixture → List ℝ
  | .circle radius cx cy => [(b2Mul xf (cx, cy)).1 + radius]
  | .box hx hy cx cy angle => (boxVertices hx hy cx cy angle).map fun v => (b2Mul xf v).1

/-- Lower y-extents one fixture contributes to the tight bounding box. -/
def specYLows (xf : B2Transform) : Fixture → List ℝ
  | .circle radius cx cy => [(b2Mul xf (cx, cy)).2 - radius]
  | .box hx hy cx cy angle => (boxVertices hx hy cx cy angle).map fun v => (b2Mul xf v).2

/-- Upper y-extents one fixture contributes to the tight bounding box. -/
def specYHighs (xf : B2Transform) : Fixture → List ℝ
  | .circle radius cx cy => [(b2Mul xf (cx, cy)).2 + radius]
  | .box hx hy cx cy angle => (boxVertices hx hy cx cy angle).map fun v => (b2Mul xf v).2

/-- Minimum of a nonempty list of reals; the `minX = +inf` initialisation the
spec describes is realised by seeding the fold with the first element. -/
def listMin (l : List ℝ) : ℝ := l.foldl min l.headI

/-- Maximum of a nonempty list of reals; the `maxX = -inf` initialisation the
spec describes is realised by seeding the fold with the first element. -/
def listMax (l : List ℝ) : ℝ := l.foldl max l.headI

/-- The bounds computation exactly as the specification states it: the tight
axis-aligned rectangle of all fixture extents (minima seeded at `+inf`,
maxima at `-inf`), converted to screen pixels with the same Y flip as the
code.  This is the reference `CalcBodyBounds` is compared against. -/
def specBodyBounds (winH : ℝ) (body : B2Body) : CCRect :=
  let minX := WORLD_TO_SCREEN (listMin (body.fixtures.flatMap (specXLows body.xf)))
  let maxX := WORLD_TO_SCREEN (listMax (body.fixtures.flatMap (specXHighs body.xf)))
  let minY := WORLD_TO_SCREEN (listMin (body.fixtures.flatMap (specYLows body.xf)))
  let maxY := WORLD_TO_SCREEN (listMax (body.fixtures.flatMap (specYHighs body.xf)))
  ⟨minX, winH - maxY, maxX - minX, maxY - minY⟩

/-- State of the `PhysicsLayer` stroke capture: the active touch id
(`current_touch_id_`, -1 when idle), the offscreen render target
(`render_target_`, modelled as the list of brush-stamp positions drawn into
it, `none` when the pointer is null), and the accumulated point sequence
(`points_being_drawn_`). -/
structure LayerState where
  current_touch_id : ℤ
  render_target : Option (List Point)
  points_being_drawn : List Point

/-- `CreateRenderTarget` (lines 69-79): allocate a fresh, empty offscreen
target. -/
def CreateRenderTarget (s : LayerState) : LayerState :=
  { s with render_target := some [] }

/-- `DrawPoint` (lines 146-153): stamp the brush at `location` into the
render target and append `location` to the point sequence. -/
def DrawPoint (s : LayerState) (location : Point) : LayerState :=
  { s with
    render_target := s.render_target.map fun rt => rt ++ [location],
    points_being_drawn := s.points_being_drawn ++ [location] }

/-- The brush stamps of `DrawLine` (lines 170-188): the loop runs for
`i = 0, ..., int(distance + 0.5) - 1` (the C cast truncates, and the operand
is nonnegative, so it is the floor), stamping at
`start + (i / distance) * (end - start)`. -/
def DrawLineStamps (start stop : Point) : List Point :=
  let distance := ccpDistance start stop
  (List.range (⌊distance + 1 / 2⌋).toNat).map fun i : ℕ =>
    let difx := stop.1 - start.1
    let dify := stop.2 - start.2
    let delta := (i : ℝ) / distance
    (start.1 + difx * delta, start.2 + dify * delta)

/-- `DrawLine` (lines 170-190): draw the brush stamps into the render target
and append the segment's end point to the point sequence. -/
def DrawLine (s : LayerState) (start stop : Point) : LayerState :=
  { s with
    render_target := s.render_target.map fun rt => rt ++ DrawLineStamps start stop,
    points_being_drawn := s.points_being_drawn ++ [stop] }

/-- `ccTouchBegan` (lines 192-205): refuse (return `false`, touch nothing)
when a touch is already active; otherwise record the touch id, create the
render target if absent, clear the point sequence and draw the first
point. -/
def ccTouchBegan (s : LayerState) (touchId : ℤ) (location : Point) : Bool × LayerState :=
  if s.current_touch_id ≠ -1 then (false, s)
  else
    let s1 := { s with current_touch_id := touchId }
    let s2 := if s1.render_target.isNone then CreateRenderTarget s1 else s1
    let s3 := { s2 with points_being_drawn := [] }
    (true, DrawPoint s3 location)

/-- The local `const int min_box_length = brush_radius_` of
`CreatePhysicsBody` (line 336): the brush radius — a float, since it is
`MAX(brush_size.height/2, brush_size.width/2)` of a texture's float size
(line 36) — is converted to `int`, which truncates; the radius is
nonnegative, so this is the floor. -/
def min_box_length (r : ℝ) : ℤ := ⌊r⌋

/-- `AddSphereToBody` (lines 377-384), as the fixture it creates: a circle of
radius `SCREEN_TO_WORLD(brush_radius_)` centred at the location in simulation
units relative to the body position. -/
def AddSphereFixture (r : ℝ) (pos : Point) (location : Point) : Fixture :=
  .circle (SCREEN_TO_WORLD r)
    (SCREEN_TO_WORLD location.1 - pos.1)
    (SCREEN_TO_WORLD location.2 - pos.2)

/-- `AddLineToBody` (lines 386-407), as the fixture it creates: an oriented
box via `SetAsBox(width/2, height/2, (posx, posy), angle)` with
`width = SCREEN_TO_WORLD(|distance|)`, `height = SCREEN_TO_WORLD(bh)` where
`bh` is the brush bounding-box height, the midpoint as center and the
`atan2` segment angle. -/
def AddLineFixture (bh : ℝ) (pos : Point) (start stop : Point) : Fixture :=
  let distance := ccpDistance start stop
  let angle := atan2 (start.2 - stop.2) (start.1 - stop.1)
  let posx := SCREEN_TO_WORLD ((start.1 + stop.1) / 2) - pos.1
  let posy := SCREEN_TO_WORLD ((start.2 + stop.2) / 2) - pos.2
  let width := SCREEN_TO_WORLD |distance|
  let height := SCREEN_TO_WORLD bh
  .box (width / 2) (height / 2) posx posy angle

/-- The point-walking loop of `CreatePhysicsBody` (lines 346-361), recorded
as the list of `(index, segment start, segment end)` triples for which
`AddLineToBody` is called: a point closer to the running segment start than
`min_box_length` is skipped — leaving the segment start unchanged — unless
its iterator equals `points_being_drawn_.end() - 1` (index `lastIdx`);
otherwise a segment is emitted and the segment start advances. -/
def bodyLoop (r : ℝ) (lastIdx : ℕ) : Point → ℕ → List Point → List (ℕ × Point × Point)
  | _, _, [] => []
  | start, i, p :: rest =>
    if ccpDistance start p < (min_box_length r : ℝ) ∧ i ≠ lastIdx then
      bodyLoop r lastIdx start (i + 1) rest
    else
      (i, start, p) :: bodyLoop r lastIdx p (i + 1) rest

/-- The indices at which the loop of `CreatePhysicsBody` evaluates the
comparison `iter != points_being_drawn_.end() - 1` (line 356): exactly the
loop iterations whose distance test `distance < min_box_length` (line 354)
succeeds. -/
def skipGuardTrace (r : ℝ) (lastIdx : ℕ) : Point → ℕ → List Point → List ℕ
  | _, _, [] => []
  | start, i, p :: rest =>
    if ccpDistance start p < (min_box_length r : ℝ) then
      if i ≠ lastIdx then i :: skipGuardTrace r lastIdx start (i + 1) rest
      else i :: skipGuardTrace r lastIdx p (i + 1) rest
    else skipGuardTrace r lastIdx p (i + 1) rest

/-- The guard trace of a whole `CreatePhysicsBody` call: the loop starts at
the second point (index 1) with the first point as segment start. -/
def CreatePhysicsBodyGuards (r : ℝ) (points : List Point) : List ℕ :=
  skipGuardTrace r (points.length - 1) points.headI 1 points.tail

/-- `CreatePhysicsBody` (lines 322-365): a dynamic body positioned at the
first stroke point in simulation units (rotation 0), with two circle caps at
the first and last point followed by one oriented box per emitted segment of
the point-walking loop.  `r` is `brush_radius_`, `bh` the brush
bounding-box height. -/
def CreatePhysicsBody (r bh : ℝ) (points : List Point) : B2Body :=
  let start := points.headI
  let pos : Point := (SCREEN_TO_WORLD start.1, SCREEN_TO_WORLD start.2)
  let xf : B2Transform := ⟨pos.1, pos.2, 0, 1⟩
  let back := (points.getLast?).getD (0, 0)
  let segs := bodyLoop r (points.length - 1) start 1 points.tail
  { xf := xf,
    fixtures :=
      [AddSphereFixture r pos start, AddSphereFixture r pos back] ++
        segs.map fun seg => AddLineFixture bh pos seg.2.1 seg.2.2 }

/-- The bounds-rectangle inflation of `CreatePhysicsSprite` (lines 296-299):
origin moves down-left by `brush_radius_`, size grows by `brush_radius_`. -/
def inflatedRect (r : ℝ) (rect : CCRect) : CCRect :=
  ⟨rect.x - r, rect.y - r, rect.w + r, rect.h + r⟩

/-- The anchor-point computation of `CreatePhysicsSprite` (lines 295-318):
take the body bounds, inflate them by the brush radius, convert the body
position to screen pixels, and normalise
`(bodyX - rect.x, bodyY + rect.y + rect.h - winH)` by the rectangle size. -/
def spriteAnchor (r winH : ℝ) (body : B2Body) : Point :=
  let rect := inflatedRect r (CalcBodyBounds winH body)
  let bodyX := WORLD_TO_SCREEN body.xf.px
  let bodyY := WORLD_TO_SCREEN body.xf.py
  let anchorX := bodyX - rect.x
  let anchorY := bodyY + rect.y + rect.h - winH
  (anchorX / rect.w, anchorY / rect.h)

/-- A child node of the layer, reduced to what `ToggleDebug` touches: its
visibility and whether it is (pointer-equal to) the current render
target. -/
structure Child where
  visible : Bool
  isRenderTarget : Bool
deriving DecidableEq

/-- The layer state `ToggleDebug` operates on: the debug flag and the child
list. -/
structure DebugLayer where
  debug_enabled : Bool
  children : List Child
deriving DecidableEq

/-- `ToggleDebug` (lines 126-140): flip `debug_enabled_`, then set every
child's visibility to `!debug_enabled_`, skipping the render target. -/
def ToggleDebug (s : DebugLayer) : DebugLayer :=
  let d := !s.debug_enabled
  { debug_enabled := d,
    children := s.children.map fun ch =>
      if ch.isRenderTarget then ch else { ch with visible := !d } }

/-- Concrete body whose fixture extents are all nonnegative (used to
instantiate the amended bounds claim). -/
def bodyA : B2Body := ⟨⟨0, 0, 0, 1⟩, [Fixture.circle 1 2 3]⟩

/-- Concrete body lying entirely at negative world coordinates (its maximal
x- and y-extents are negative). -/
def bodyNeg : B2Body := ⟨⟨0, 0, 0, 1⟩, [Fixture.circle 1 (-2) (-2)]⟩

/-- A left fold by `min` never exceeds its initial accumulator. -/
theorem foldl_min_le_init (l : List ℝ) : ∀ a : ℝ, l.foldl min a ≤ a := by
  induction l with
  | nil => intro a; simp
  | cons x xs ih =>
      intro a
      simp only [List.foldl_cons]
      exact le_trans (ih (min a x)) (min_le_left a x)

/-- A left fold by `min` is bounded by every list element. -/
theorem foldl_min_le_of_mem (l : List ℝ) :
    ∀ (a x : ℝ), x ∈ l → l.foldl min a ≤ x := by
  induction l with
  | nil => intro a x hx; cases hx
  | cons y ys ih =>
      intro a x hx
      simp only [List.foldl_cons]
      rcases List.mem_cons.1 hx with h | h
      · subst h
        exact le_trans (foldl_min_le_init ys (min a x)) (min_le_right a x)
      · exact ih (min a y) x h

/-- A left fold by `max` is at least its initial accumulator. -/
theorem init_le_foldl_max (l : List ℝ) : ∀ a : ℝ, a ≤ l.foldl max a := by
  induction l with
  | nil => intro a; simp
  | cons x xs ih =>
      intro a
      simp only [List.foldl_cons]
      exact le_trans (le_max_left a x) (ih (max a x))

/-- A left fold by `max` dominates every list element. -/
theorem le_foldl_max_of_mem (l : List ℝ) :
    ∀ (a x : ℝ), x ∈ l → x ≤ l.foldl max a := by
  induction l with
  | nil => intro a x hx; cases hx
  | cons y ys ih =>
      intro a x hx
      simp only [List.foldl_cons]
      rcases List.mem_cons.1 hx with h | h
      · subst h
        exact le_trans (le_max_right a x) (init_le_foldl_max ys (max a x))
      · exact ih (max a y) x h

/-- The initial accumulator distributes out of a left fold by `min`. -/
theorem foldl_min_min (l : List ℝ) :
    ∀ a b : ℝ, l.foldl min (min a b) = min a (l.foldl min b) := by
  induction l with
  | nil => intro a b; rfl
  | cons x xs ih =>
      intro a b
      simp only [List.foldl_cons]
      rw [min_assoc, ih]

/-- The initial accumulator distributes out of a left fold by `max`. -/
theorem foldl_max_max (l : List ℝ) :
    ∀ a b : ℝ, l.foldl max (max a b) = max a (l.foldl max b) := by
  induction l with
  | nil => intro a b; rfl
  | cons x xs ih =>
      intro a b
      simp only [List.foldl_cons]
      rw [max_assoc, ih]

/-- A left fold by `min` over a nonempty list is the `min` of the seed and
the list minimum. -/
theorem foldl_min_eq_listMin (l : List ℝ) (h : l ≠ []) (a : ℝ) :
    l.foldl min a = min a (listMin l) := by
  cases l with
  | nil => cases h rfl
  | cons x xs =>
      simp only [listMin, List.headI, List.foldl_cons, min_self]
      exact foldl_min_min xs a x

/-- A left fold by `max` over a nonempty list is the `max` of the seed and
the list maximum. -/
theorem foldl_max_eq_listMax (l : List ℝ) (h : l ≠ []) (a : ℝ) :
    l.foldl max a = max a (listMax l) := by
  cases l with
  | nil => cases h rfl
  | cons x xs =>
      simp only [listMax, List.headI, List.foldl_cons, max_self]
      exact foldl_max_max xs a x

/-- The vertex fold of the polygon branch, component by component. -/
theorem vertexFold_eq (xf : B2Transform) (vs : List Point) : ∀ b : BBounds,
    vs.foldl (vertexStep xf) b =
      ⟨(vs.map fun v => (b2Mul xf v).1).foldl min b.minX,
       (vs.map fun v => (b2Mul xf v).1).foldl max b.maxX,
       (vs.map fun v => (b2Mul xf v).2).foldl min b.minY,
       (vs.map fun v => (b2Mul xf v).2).foldl max b.maxY⟩ := by
  induction vs with
  | nil => intro b; rfl
  | cons v vs ih =>
      intro b
      simp only [List.foldl_cons, List.map_cons]
      rw [ih]
      rfl

/-- One fixture step of the bounds fold, component by component: it folds
`min`/`max` over exactly the spec's extent lists. -/
theorem boundsStep_eq (xf : B2Transform) (b : BBounds) (f : Fixture) :
    boundsStep xf b f =
      ⟨(specXLows xf f).foldl min b.minX,
       (specXHighs xf f).foldl max b.maxX,
       (specYLows xf f).foldl min b.minY,
       (specYHighs xf f).foldl max b.maxY⟩ := by
  cases f with
  | circle radius cx cy => rfl
  | box hx hy cx cy angle =>
      simp only [boundsStep, specXLows, specXHighs, specYLows, specYHighs]
      exact vertexFold_eq xf _ b

/-- The whole bounds fold, component by component: each extreme is a plain
`min`/`max` fold over the flattened extent lists. -/
theorem boundsFold_eq (xf : B2Transform) (fs : List Fixture) : ∀ b : BBounds,
    fs.foldl (boundsStep xf) b =
      ⟨(fs.flatMap (specXLows xf)).foldl min b.minX,
       (fs.flatMap (specXHighs xf)).foldl max b.maxX,
       (fs.flatMap (specYLows xf)).foldl min b.minY,
       (fs.flatMap (specYHighs xf)).foldl max b.maxY⟩ := by
  induction fs with
  | nil => intro b; rfl
  | cons f fs ih =>
      intro b
      simp only [List.foldl_cons, List.flatMap_cons, List.foldl_append]
      rw [ih, boundsStep_eq]

/-- Every fixture contributes at least one lower x-extent. -/
theorem specXLows_ne_nil (xf : B2Transform) (f : Fixture) : specXLows xf f ≠ [] := by
  cases f <;> simp [specXLows, boxVertices]

/-- Every fixture contributes at least one upper x-extent. -/
theorem specXHighs_ne_nil (xf : B2Transform) (f : Fixture) : specXHighs xf f ≠ [] := by
  cases f <;> simp [specXHighs, boxVertices]

/-- Every fixture contributes at least one lower y-extent. -/
theorem specYLows_ne_nil (xf : B2Transform) (f : Fixture) : specYLows xf f ≠ [] := by
  cases f <;> simp [specYLows, boxVertices]

/-- Every fixture contributes at least one upper y-extent. -/
theorem specYHighs_ne_nil (xf : B2Transform) (f : Fixture) : specYHighs xf f ≠ [] := by
  cases f <;> simp [specYHighs, boxVertices]

/-- Flattening fixture extents over a nonempty fixture list is nonempty. -/
theorem flatMap_extents_ne_nil (g : Fixture → List ℝ) (hg : ∀ f, g f ≠ [])
    (fs : List Fixture) (h : fs ≠ []) : fs.flatMap g ≠ [] := by
  cases fs with
  | nil => cases h rfl
  | cons f fs =>
      simp only [List.flatMap_cons]
      intro hc
      exact hg f (List.append_eq_nil.1 hc).1

/-- Evaluation helper: the Euclidean distance between concrete points whose
squared distance is a perfect square. -/
theorem ccpDist_eval (a₁ a₂ b₁ b₂ d : ℝ) (hd : 0 ≤ d)
    (h : (a₁ - b₁) ^ 2 + (a₂ - b₂) ^ 2 = d ^ 2) :
    ccpDistance (a₁, a₂) (b₁, b₂) = d := by
  show Real.sqrt ((a₁ - b₁) ^ 2 + (a₂ - b₂) ^ 2) = d
  rw [h]
  exact Real.sqrt_sq hd

/-- Claim C9: the coordinate conversion is a pure scale by the fixed ratio
R = 32 — `toSim x = x / 32`, `toScreen x = x * 32`, with no clamping or
rounding — and `toScreen (toSim x) = x` for every `x` (exact round trip over
the reals). -/
theorem coordinate_conversion_roundtrip (x : ℝ) :
    SCREEN_TO_WORLD x = x / 32 ∧ WORLD_TO_SCREEN x = x * 32 ∧
    WORLD_TO_SCREEN (SCREEN_TO_WORLD x) = x := by
  refine ⟨rfl, rfl, ?_⟩
  show x / PTM_RATIO * PTM_RATIO = x
  rw [ PTM_RATIO]
  exact div_mul_cancel₀ x (by norm_num)

/-- Claim C5: a one-point stroke produces exactly two circle fixtures, both
of radius `toSim brush_radius` and both centred at the origin of the body
(the stroke point relative to the body position), and no box fixtures. -/
theorem singlePoint_two_circles (r bh : ℝ) (p : Point) :
    (CreatePhysicsBody r bh [p]).fixtures =
      [Fixture.circle (SCREEN_TO_WORLD r) 0 0,
       Fixture.circle (SCREEN_TO_WORLD r) 0 0] := by
  simp [CreatePhysicsBody, AddSphereFixture, bodyLoop]

/-- Claim C7: while a touch is active (`current_touch_id_ ≠ -1`), a second
`ccTouchBegan` returns `false` and leaves the point sequence, the render
target and the active touch id unchanged. -/
theorem touchBegan_refuses_second (s : LayerState) (touchId : ℤ) (location : Point)
    (h : s.current_touch_id ≠ -1) :
    (ccTouchBegan s touchId location).1 = false ∧
    (ccTouchBegan s touchId location).2.points_being_drawn = s.points_being_drawn ∧
    (ccTouchBegan s touchId location).2.render_target = s.render_target ∧
    (ccTouchBegan s touchId location).2.current_touch_id = s.current_touch_id := by
  simp [ccTouchBegan, h]

/-- Witness for the second-begin refusal at a concrete capturing state. -/
theorem touchBegan_refuses_second_witness :
    ((5 : ℤ) ≠ -1) ∧
    (ccTouchBegan ⟨5, some [((1:ℝ), (1:ℝ))], [((1:ℝ), (1:ℝ))]⟩ 7 (2, 3)).1 = false ∧
    (ccTouchBegan ⟨5, some [((1:ℝ), (1:ℝ))], [((1:ℝ), (1:ℝ))]⟩ 7
        (2, 3)).2.points_being_drawn = [((1:ℝ), (1:ℝ))] ∧
    (ccTouchBegan ⟨5, some [((1:ℝ), (1:ℝ))], [((1:ℝ), (1:ℝ))]⟩ 7
        (2, 3)).2.render_target = some [((1:ℝ), (1:ℝ))] ∧
    (ccTouchBegan ⟨5, some [((1:ℝ), (1:ℝ))], [((1:ℝ), (1:ℝ))]⟩ 7
        (2, 3)).2.current_touch_id = 5 := by
  have h := touchBegan_refuses_second ⟨5, some [((1:ℝ), (1:ℝ))], [((1:ℝ), (1:ℝ))]⟩ 7 (2, 3)
    (by decide)
  exact ⟨by decide, h.1, h.2.1, h.2.2.1, h.2.2.2⟩

/-- Claim C10 counterexample: a hidden non-render-target child of a layer
with debugging off does not get its visibility back after two toggles, so
`ToggleDebug` is not an involution on the layer state. -/
theorem toggleDebug_not_involution :
    ToggleDebug (ToggleDebug ⟨false, [⟨false, false⟩]⟩) ≠ ⟨false, [⟨false, false⟩]⟩ := by
  decide

/-- Claim C10 (amended): a double `ToggleDebug` restores the debug flag and
sets every non-render-target child's visibility to the negation of that
flag (so a child's visibility is restored exactly when it already had that
value); a single `ToggleDebug` sets every non-render-target child's
visibility to the original flag value and never changes a render-target
child. -/
theorem toggleDebug_double (s : DebugLayer) :
    (ToggleDebug (ToggleDebug s)).debug_enabled = s.debug_enabled ∧
    (ToggleDebug (ToggleDebug s)).children =
      s.children.map (fun ch => if ch.isRenderTarget then ch
        else { ch with visible := !s.debug_enabled }) ∧
    (ToggleDebug s).children =
      s.children.map (fun ch => if ch.isRenderTarget then ch
        else { ch with visible := s.debug_enabled }) := by
  refine ⟨by simp [ToggleDebug], ?_, ?_⟩
  · simp only [ToggleDebug, List.map_map]
    apply List.map_congr_left
    intro ch _
    by_cases h : ch.isRenderTarget <;> simp [h, Function.comp]
  · simp only [ToggleDebug]
    apply List.map_congr_left
    intro ch _
    by_cases h : ch.isRenderTarget <;> simp [h]

/-- Claim C8: given a nonempty point sequence, any evaluation of the
`end() - 1` comparison (any entry of the guard trace) implies the sequence
has at least two elements, and for a one-element sequence the loop over the
remaining points is never entered at all. -/
theorem skipGuard_needs_two_points (r : ℝ) (pts : List Point) (h : pts ≠ []) :
    (∀ i ∈ CreatePhysicsBodyGuards r pts, 2 ≤ pts.length) ∧
    (pts.length = 1 →
      bodyLoop r (pts.length - 1) pts.headI 1 pts.tail = [] ∧
      CreatePhysicsBodyGuards r pts = []) := by
  cases pts with
  | nil => cases h rfl
  | cons p t =>
      cases t with
      | nil =>
          refine ⟨?_, fun _ => ⟨rfl, rfl⟩⟩
          intro i hi
          simp [CreatePhysicsBodyGuards, skipGuardTrace] at hi
      | cons q t' =>
          refine ⟨?_, ?_⟩
          · intro i _
            simp only [List.length_cons]
            omega
          · intro hlen
            simp only [List.length_cons] at hlen
            omega

/-- Witness for the guard-trace claim: a two-point stroke whose second point
is closer than the brush radius makes the guard comparison fire at index 1,
and the sequence indeed has two elements. -/
theorem skipGuard_needs_two_points_witness :
    ([((1:ℝ), (2:ℝ)), ((2:ℝ), (2:ℝ))] : List Point) ≠ [] ∧
    1 ∈ CreatePhysicsBodyGuards 5 [((1:ℝ), (2:ℝ)), ((2:ℝ), (2:ℝ))] ∧
    2 ≤ ([((1:ℝ), (2:ℝ)), ((2:ℝ), (2:ℝ))] : List Point).length := by
  have hne : ([((1:ℝ), (2:ℝ)), ((2:ℝ), (2:ℝ))] : List Point) ≠ [] := by simp
  have hd1 : ccpDistance ((1:ℝ), (2:ℝ)) ((2:ℝ), (2:ℝ)) = 1 :=
    ccpDist_eval 1 2 2 2 1 (by norm_num) (by norm_num)
  have hfl : ((min_box_length 5 : ℤ) : ℝ) = 5 := by
    norm_num [min_box_length]
  have hmem : 1 ∈ CreatePhysicsBodyGuards 5 [((1:ℝ), (2:ℝ)), ((2:ℝ), (2:ℝ))] := by
    simp [CreatePhysicsBodyGuards, skipGuardTrace, hd1, hfl]
  exact ⟨hne, hmem, (skipGuard_needs_two_points 5 _ hne).1 1 hmem⟩

/-- Every segment the point-walking loop emits at a non-final index spans a
distance of at least `min_box_length`. -/
theorem bodyLoop_emit_ge (r : ℝ) (lastIdx : ℕ) :
    ∀ (l : List Point) (s : Point) (i : ℕ) (seg : ℕ × Point × Point),
      seg ∈ bodyLoop r lastIdx s i l → seg.1 ≠ lastIdx →
      (min_box_length r : ℝ) ≤ ccpDistance seg.2.1 seg.2.2 := by
  intro l
  induction l with
  | nil =>
      intro s i seg hseg _
      simp [bodyLoop] at hseg
  | cons p rest ih =>
      intro s i seg hseg hne
      by_cases hc : ccpDistance s p < (min_box_length r : ℝ) ∧ i ≠ lastIdx
      · simp only [bodyLoop] at hseg
        rw [if_pos hc] at hseg
        exact ih s (i + 1) seg hseg hne
      · simp only [bodyLoop] at hseg
        rw [if_neg hc] at hseg
        rcases List.mem_cons.1 hseg with h | h
        · subst h
          have hnd : ¬ ccpDistance s p < (min_box_length r : ℝ) := fun hdlt => hc ⟨hdlt, hne⟩
          exact not_lt.1 hnd
        · exact ih p (i + 1) seg h hne

/-- Claim C4 (amended): in the walk over the stroke, a point within
`min_box_length = int(brush_radius_)` — the brush radius truncated to an
integer — of the current segment start is skipped (no fixture emitted,
segment start unchanged) unless it is the final point; consequently every
emitted segment not ending at the final index spans at least
`min_box_length`, so its oriented-box fixture has width at least
`toSim (int brushRadius)`. -/
theorem boxFixture_min_width (r bh : ℝ) (pts : List Point) :
    (∀ (s p : Point) (i : ℕ) (rest : List Point),
        ccpDistance s p < (min_box_length r : ℝ) → i ≠ pts.length - 1 →
        bodyLoop r (pts.length - 1) s i (p :: rest) =
          bodyLoop r (pts.length - 1) s (i + 1) rest) ∧
    (∀ seg ∈ bodyLoop r (pts.length - 1) pts.headI 1 pts.tail,
        seg.1 ≠ pts.length - 1 →
        (min_box_length r : ℝ) ≤ ccpDistance seg.2.1 seg.2.2 ∧
        SCREEN_TO_WORLD (min_box_length r : ℝ) ≤
          (AddLineFixture bh (SCREEN_TO_WORLD pts.headI.1, SCREEN_TO_WORLD pts.headI.2)
            seg.2.1 seg.2.2).boxWidth) := by
  constructor
  · intro s p i rest hd hi
    simp only [bodyLoop]
    rw [if_pos ⟨hd, hi⟩]
  · intro seg hseg hne
    have hd := bodyLoop_emit_ge r (pts.length - 1) pts.tail pts.headI 1 seg hseg hne
    refine ⟨hd, ?_⟩
    have hnn : (0:ℝ) ≤ ccpDistance seg.2.1 seg.2.2 := Real.sqrt_nonneg _
    have hw : (AddLineFixture bh (SCREEN_TO_WORLD pts.headI.1, SCREEN_TO_WORLD pts.headI.2)
        seg.2.1 seg.2.2).boxWidth = SCREEN_TO_WORLD |ccpDistance seg.2.1 seg.2.2| := by
      simp only [AddLineFixture, Fixture.boxWidth]
      ring
    rw [hw, abs_of_nonneg hnn]
    simp only [SCREEN_TO_WORLD, PTM_RATIO]
    linarith

/-- Claim C4 counterexample: with brush radius 5/2, the point (3,2) lies at
distance 2 < 5/2 from the segment start (1,2) and is not the final point,
yet the loop emits a segment for it (the integer truncation lowered the
threshold to 2), and the resulting box fixture is narrower than
`toSim (5/2)`. -/
theorem skipThreshold_counterexample :
    ccpDistance ((1:ℝ), (2:ℝ)) ((3:ℝ), (2:ℝ)) < 5 / 2 ∧
    (1, ((1:ℝ), (2:ℝ)), ((3:ℝ), (2:ℝ))) ∈
      bodyLoop (5 / 2)
        (([((1:ℝ), (2:ℝ)), ((3:ℝ), (2:ℝ)), ((11:ℝ), (2:ℝ))] : List Point).length - 1)
        ([((1:ℝ), (2:ℝ)), ((3:ℝ), (2:ℝ)), ((11:ℝ), (2:ℝ))] : List Point).headI 1
        ([((1:ℝ), (2:ℝ)), ((3:ℝ), (2:ℝ)), ((11:ℝ), (2:ℝ))] : List Point).tail ∧
    (AddLineFixture 1 (SCREEN_TO_WORLD (1:ℝ), SCREEN_TO_WORLD (2:ℝ))
        ((1:ℝ), (2:ℝ)) ((3:ℝ), (2:ℝ))).boxWidth < SCREEN_TO_WORLD (5 / 2) := by
  have hd2 : ccpDistance ((1:ℝ), (2:ℝ)) ((3:ℝ), (2:ℝ)) = 2 :=
    ccpDist_eval 1 2 3 2 2 (by norm_num) (by norm_num)
  have hd8 : ccpDistance ((3:ℝ), (2:ℝ)) ((11:ℝ), (2:ℝ)) = 8 :=
    ccpDist_eval 3 2 11 2 8 (by norm_num) (by norm_num)
  have hfl : ((min_box_length (5 / 2) : ℤ) : ℝ) = 2 := by
    norm_num [min_box_length]
  refine ⟨by rw [hd2]; norm_num, ?_, ?_⟩
  · norm_num [bodyLoop, hd2, hd8, hfl]
  · norm_num [AddLineFixture, Fixture.boxWidth, SCREEN_TO_WORLD, PTM_RATIO, hd2, abs_two]

/-- Witness for the amended skip claim: with brush radius 3, a close
non-final point is skipped, and a far segment's box fixture is at least
`toSim 3` wide. -/
theorem boxFixture_min_width_witness :
    (bodyLoop 3 (([((1:ℝ), (2:ℝ)), ((6:ℝ), (2:ℝ)), ((10:ℝ), (2:ℝ))] : List Point).length - 1)
        ((1:ℝ), (2:ℝ)) 1 [((2:ℝ), (2:ℝ))] =
      bodyLoop 3 (([((1:ℝ), (2:ℝ)), ((6:ℝ), (2:ℝ)), ((10:ℝ), (2:ℝ))] : List Point).length - 1)
        ((1:ℝ), (2:ℝ)) 2 []) ∧
    (min_box_length 3 : ℝ) ≤ ccpDistance ((1:ℝ), (2:ℝ)) ((6:ℝ), (2:ℝ)) ∧
    SCREEN_TO_WORLD (min_box_length 3 : ℝ) ≤
      (AddLineFixture 1
        (SCREEN_TO_WORLD ([((1:ℝ), (2:ℝ)), ((6:ℝ), (2:ℝ)), ((10:ℝ), (2:ℝ))] : List Point).headI.1,
         SCREEN_TO_WORLD ([((1:ℝ), (2:ℝ)), ((6:ℝ), (2:ℝ)), ((10:ℝ), (2:ℝ))] : List Point).headI.2)
        ((1:ℝ), (2:ℝ)) ((6:ℝ), (2:ℝ))).boxWidth := by
  have h := boxFixture_min_width 3 1 [((1:ℝ), (2:ℝ)), ((6:ℝ), (2:ℝ)), ((10:ℝ), (2:ℝ))]
  have hd1 : ccpDistance ((1:ℝ), (2:ℝ)) ((2:ℝ), (2:ℝ)) = 1 :=
    ccpDist_eval 1 2 2 2 1 (by norm_num) (by norm_num)
  have hd5 : ccpDistance ((1:ℝ), (2:ℝ)) ((6:ℝ), (2:ℝ)) = 5 :=
    ccpDist_eval 1 2 6 2 5 (by norm_num) (by norm_num)
  have hd4 : ccpDistance ((6:ℝ), (2:ℝ)) ((10:ℝ), (2:ℝ)) = 4 :=
    ccpDist_eval 6 2 10 2 4 (by norm_num) (by norm_num)
  have hfl : ((min_box_length 3 : ℤ) : ℝ) = 3 := by norm_num [min_box_length]
  have hmem : ((1 : ℕ), ((1:ℝ), (2:ℝ)), ((6:ℝ), (2:ℝ))) ∈
      bodyLoop 3 (([((1:ℝ), (2:ℝ)), ((6:ℝ), (2:ℝ)), ((10:ℝ), (2:ℝ))] : List Point).length - 1)
        ([((1:ℝ), (2:ℝ)), ((6:ℝ), (2:ℝ)), ((10:ℝ), (2:ℝ))] : List Point).headI 1
        ([((1:ℝ), (2:ℝ)), ((6:ℝ), (2:ℝ)), ((10:ℝ), (2:ℝ))] : List Point).tail := by
    norm_num [bodyLoop, hd5, hd4, hfl]
  have h2 := h.2 _ hmem (by simp)
  exact ⟨h.1 ((1:ℝ), (2:ℝ)) ((2:ℝ), (2:ℝ)) 1 [] (by rw [hd1, hfl]; norm_num) (by simp),
    h2.1, h2.2⟩

/-- When no two consecutive stroke points are closer than `min_box_length`,
the loop emits one segment per remaining point. -/
theorem bodyLoop_length_of_chain (r : ℝ) (lastIdx : ℕ) (l : List Point) :
    ∀ (s : Point) (i : ℕ),
      List.Chain' (fun a b => ¬ ccpDistance a b < (min_box_length r : ℝ)) (s :: l) →
      (bodyLoop r lastIdx s i l).length = l.length := by
  induction l with
  | nil => intro s i _; rfl
  | cons p rest ih =>
      intro s i hch
      rw [List.chain'_cons] at hch
      simp only [bodyLoop]
      rw [if_neg (fun hand => hch.1 hand.1)]
      simp only [List.length_cons]
      rw [ih p (i + 1) hch.2]

/-- The box-fixture count of a built body is the emitted segment count. -/
theorem fixtures_countP_isBox (r bh : ℝ) (pts : List Point) :
    (CreatePhysicsBody r bh pts).fixtures.countP Fixture.isBox =
      (bodyLoop r (pts.length - 1) pts.headI 1 pts.tail).length := by
  simp [CreatePhysicsBody, List.countP_append, List.countP_map, AddSphereFixture,
    AddLineFixture, Fixture.isBox, Function.comp, List.countP_cons]

/-- A built body always carries exactly the two circle caps. -/
theorem fixtures_countP_isCircle (r bh : ℝ) (pts : List Point) :
    (CreatePhysicsBody r bh pts).fixtures.countP Fixture.isCircle = 2 := by
  simp [CreatePhysicsBody, List.countP_append, List.countP_map, AddSphereFixture,
    AddLineFixture, Fixture.isCircle, Function.comp, List.countP_cons]

/-- Claim C6: a straight stroke of N evenly spaced points whose consecutive
spacing exceeds the brush radius yields exactly N-1 oriented-box fixtures
and exactly 2 circle fixtures. -/
theorem straightStroke_fixture_count (x0 y0 vx vy r bh : ℝ) (N : ℕ) (pts : List Point)
    (hpts : pts = (List.range N).map fun i : ℕ => (x0 + (i : ℝ) * vx, y0 + (i : ℝ) * vy))
    (hN : 2 ≤ N) (hspace : r < Real.sqrt (vx ^ 2 + vy ^ 2)) :
    (CreatePhysicsBody r bh pts).fixtures.countP Fixture.isBox = N - 1 ∧
    (CreatePhysicsBody r bh pts).fixtures.countP Fixture.isCircle = 2 := by
  have hlen : pts.length = N := by rw [hpts]; simp
  have hchain : List.Chain' (fun a b => ¬ ccpDistance a b < (min_box_length r : ℝ)) pts := by
    rw [hpts, List.chain'_map]
    obtain ⟨M, rfl⟩ : ∃ M, N = M + 1 := ⟨N - 1, by omega⟩
    rw [List.chain'_range_succ]
    intro m _
    have heq : ccpDistance (x0 + (m : ℝ) * vx, y0 + (m : ℝ) * vy)
        (x0 + ((m + 1 : ℕ) : ℝ) * vx, y0 + ((m + 1 : ℕ) : ℝ) * vy) =
        Real.sqrt (vx ^ 2 + vy ^ 2) := by
      show Real.sqrt _ = Real.sqrt _
      congr 1
      push_cast
      ring
    rw [heq, not_lt]
    have hfle : ((min_box_length r : ℤ) : ℝ) ≤ r := Int.floor_le r
    linarith
  have hne : pts ≠ [] := by
    intro hc
    rw [hc] at hlen
    simp at hlen
    omega
  obtain ⟨q, t, hqt⟩ := List.exists_cons_of_ne_nil hne
  subst hqt
  have hsegs := bodyLoop_length_of_chain r ((q :: t).length - 1) t q 1 hchain
  refine ⟨?_, fixtures_countP_isCircle r bh _⟩
  rw [fixtures_countP_isBox]
  simp only [List.headI, List.tail_cons]
  rw [hsegs]
  simp only [List.length_cons] at hlen
  omega

/-- Witness for the straight-stroke fixture count: three collinear points
spaced 2 apart with brush radius 1 give 2 boxes and 2 circles. -/
theorem straightStroke_fixture_count_witness :
    ([((1:ℝ), (2:ℝ)), ((3:ℝ), (2:ℝ)), ((5:ℝ), (2:ℝ))] : List Point) =
      ((List.range 3).map fun i : ℕ => ((1:ℝ) + (i : ℝ) * 2, (2:ℝ) + (i : ℝ) * 0)) ∧
    2 ≤ 3 ∧ (1:ℝ) < Real.sqrt (2 ^ 2 + 0 ^ 2) ∧
    (CreatePhysicsBody 1 1
        [((1:ℝ), (2:ℝ)), ((3:ℝ), (2:ℝ)), ((5:ℝ), (2:ℝ))]).fixtures.countP Fixture.isBox =
      3 - 1 ∧
    (CreatePhysicsBody 1 1
        [((1:ℝ), (2:ℝ)), ((3:ℝ), (2:ℝ)), ((5:ℝ), (2:ℝ))]).fixtures.countP Fixture.isCircle =
      2 := by
  have hpts : ([((1:ℝ), (2:ℝ)), ((3:ℝ), (2:ℝ)), ((5:ℝ), (2:ℝ))] : List Point) =
      ((List.range 3).map fun i : ℕ => ((1:ℝ) + (i : ℝ) * 2, (2:ℝ) + (i : ℝ) * 0)) := by
    simp [List.range_succ]
    norm_num
  have hsqrt : Real.sqrt ((2:ℝ) ^ 2 + 0 ^ 2) = 2 := by
    rw [show ((2:ℝ) ^ 2 + 0 ^ 2) = 2 ^ 2 by norm_num]
    exact Real.sqrt_sq (by norm_num)
  have hsp : (1:ℝ) < Real.sqrt (2 ^ 2 + 0 ^ 2) := by rw [hsqrt]; norm_num
  have h := straightStroke_fixture_count 1 2 2 0 1 1 3 _ hpts (by norm_num) hsp
  exact ⟨hpts, by norm_num, hsp, h.1, h.2⟩

/-- Claim C3 counterexample: at distance 3 the brush is stamped
`int(3 + 0.5) = 3` times, not `round 3 + 1 = 4`. -/
theorem drawLine_count_counterexample :
    (DrawLineStamps ((1:ℝ), (2:ℝ)) ((4:ℝ), (2:ℝ))).length ≠
      (round (ccpDistance ((1:ℝ), (2:ℝ)) ((4:ℝ), (2:ℝ)))).toNat + 1 := by
  have hd : ccpDistance ((1:ℝ), (2:ℝ)) ((4:ℝ), (2:ℝ)) = 3 :=
    ccpDist_eval 1 2 4 2 3 (by norm_num) (by norm_num)
  simp only [DrawLineStamps, hd, List.length_map, List.length_range]
  norm_num [round_eq]

/-- Claim C3 (amended): `DrawLine` stamps the brush exactly
`int(distance + 0.5) = round distance` times (not `round distance + 1`), at
the linearly interpolated positions `from + (i / distance) * (to - from)`
for `i = 0, ..., count - 1`, and appends `to` to the point sequence. -/
theorem drawLine_stamp_spec (s : LayerState) (a b : Point) :
    (DrawLineStamps a b).length = (round (ccpDistance a b)).toNat ∧
    (∀ i : ℕ, i < (DrawLineStamps a b).length →
      (DrawLineStamps a b)[i]? =
        some (a.1 + (b.1 - a.1) * ((i : ℝ) / ccpDistance a b),
              a.2 + (b.2 - a.2) * ((i : ℝ) / ccpDistance a b))) ∧
    (DrawLine s a b).points_being_drawn = s.points_being_drawn ++ [b] := by
  refine ⟨by simp [DrawLineStamps, round_eq], ?_, rfl⟩
  intro i hi
  simp only [DrawLineStamps, List.length_map, List.length_range] at hi
  simp only [DrawLineStamps]
  rw [List.getElem?_map, List.getElem?_range hi]
  rfl

/-- Witness for the stamp specification on the segment (1,2)-(3,2) of
distance 2: two stamps, the second at (2,2), and (3,2) appended. -/
theorem drawLine_stamp_spec_witness :
    (DrawLineStamps ((1:ℝ), (2:ℝ)) ((3:ℝ), (2:ℝ))).length = 2 ∧
    (DrawLineStamps ((1:ℝ), (2:ℝ)) ((3:ℝ), (2:ℝ)))[1]? = some ((2:ℝ), (2:ℝ)) ∧
    (DrawLine ⟨-1, none, []⟩ ((1:ℝ), (2:ℝ)) ((3:ℝ), (2:ℝ))).points_being_drawn =
      [((3:ℝ), (2:ℝ))] := by
  have hd : ccpDistance ((1:ℝ), (2:ℝ)) ((3:ℝ), (2:ℝ)) = 2 :=
    ccpDist_eval 1 2 3 2 2 (by norm_num) (by norm_num)
  have h := drawLine_stamp_spec ⟨-1, none, []⟩ ((1:ℝ), (2:ℝ)) ((3:ℝ), (2:ℝ))
  have hr2 : round (2:ℝ) = 2 := by norm_num [round_eq]
  have hlen : (DrawLineStamps ((1:ℝ), (2:ℝ)) ((3:ℝ), (2:ℝ))).length = 2 := by
    rw [h.1, hd, hr2]
    rfl
  refine ⟨hlen, ?_, by simpa using h.2.2⟩
  have hi := h.2.1 1 (by rw [hlen]; norm_num)
  rw [hi, hd]
  norm_num

/-- Claim C1 counterexample: for a body consisting of one circle of radius 1
centred at (-2, -2) under the identity transform, `CalcBodyBounds` does not
return the tight rectangle: its `maxX`/`maxY` seeds are 0 rather than -inf,
so the computed width is 96 instead of the tight 64. -/
theorem calcBodyBounds_not_tight :
    (CalcBodyBounds 100 bodyNeg).w ≠ (specBodyBounds 100 bodyNeg).w := by
  have hcode : (CalcBodyBounds 100 bodyNeg).w = 96 := by
    simp only [CalcBodyBounds, boundsOfBody, bodyNeg, List.foldl_cons, List.foldl_nil,
      boundsStep, accExt, b2Mul, WORLD_TO_SCREEN, PTM_RATIO]
    norm_num [FLT_MAX, min_def, max_def]
  have hspec : (specBodyBounds 100 bodyNeg).w = 64 := by
    simp only [specBodyBounds, bodyNeg, List.flatMap_cons, List.flatMap_nil,
      specXLows, specXHighs, specYLows, specYHighs, b2Mul, List.append_nil,
      listMin, listMax, List.headI, List.foldl_cons, List.foldl_nil,
      WORLD_TO_SCREEN, PTM_RATIO]
    norm_num [min_def, max_def]
  rw [hcode, hspec]
  norm_num

/-- Claim C1 (amended): `CalcBodyBounds` seeds the maxima at 0 (not -inf)
and the minima at `FLT_MAX` (not +inf); provided the body has a fixture, its
tight maximal x- and y-extents are nonnegative and its tight minimal extents
do not exceed `FLT_MAX`, the function returns exactly the tight bounding
rectangle the spec describes — extents over all fixtures under the body's
transform, converted to screen pixels, with width/height as differences and
top edge `winH - maxY`. -/
theorem calcBodyBounds_tight_of_nonneg (winH : ℝ) (body : B2Body)
    (hne : body.fixtures ≠ [])
    (hmx : 0 ≤ listMax (body.fixtures.flatMap (specXHighs body.xf)))
    (hmy : 0 ≤ listMax (body.fixtures.flatMap (specYHighs body.xf)))
    (hnx : listMin (body.fixtures.flatMap (specXLows body.xf)) ≤ FLT_MAX)
    (hny : listMin (body.fixtures.flatMap (specYLows body.xf)) ≤ FLT_MAX) :
    CalcBodyBounds winH body = specBodyBounds winH body := by
  have hLx := flatMap_extents_ne_nil (specXLows body.xf) (specXLows_ne_nil body.xf)
    body.fixtures hne
  have hHx := flatMap_extents_ne_nil (specXHighs body.xf) (specXHighs_ne_nil body.xf)
    body.fixtures hne
  have hLy := flatMap_extents_ne_nil (specYLows body.xf) (specYLows_ne_nil body.xf)
    body.fixtures hne
  have hHy := flatMap_extents_ne_nil (specYHighs body.xf) (specYHighs_ne_nil body.xf)
    body.fixtures hne
  have hfold := boundsFold_eq body.xf body.fixtures ⟨FLT_MAX, 0, FLT_MAX, 0⟩
  simp only [CalcBodyBounds, boundsOfBody, specBodyBounds, hfold]
  rw [foldl_min_eq_listMin _ hLx, foldl_max_eq_listMax _ hHx,
    foldl_min_eq_listMin _ hLy, foldl_max_eq_listMax _ hHy,
    min_eq_right hnx, max_eq_right hmx, min_eq_right hny, max_eq_right hmy]

/-- Witness for the amended bounds claim: a circle of radius 1 at (2, 3)
satisfies the nonnegativity side conditions, and the code agrees with the
tight rectangle there. -/
theorem calcBodyBounds_tight_witness :
    bodyA.fixtures ≠ [] ∧
    0 ≤ listMax (bodyA.fixtures.flatMap (specXHighs bodyA.xf)) ∧
    0 ≤ listMax (bodyA.fixtures.flatMap (specYHighs bodyA.xf)) ∧
    listMin (bodyA.fixtures.flatMap (specXLows bodyA.xf)) ≤ FLT_MAX ∧
    listMin (bodyA.fixtures.flatMap (specYLows bodyA.xf)) ≤ FLT_MAX ∧
    CalcBodyBounds 100 bodyA = specBodyBounds 100 bodyA := by
  have h1 : bodyA.fixtures ≠ [] := by simp [bodyA]
  have h2 : 0 ≤ listMax (bodyA.fixtures.flatMap (specXHighs bodyA.xf)) := by
    simp only [bodyA, List.flatMap_cons, List.flatMap_nil, specXHighs, b2Mul,
      List.append_nil, listMax, List.headI, List.foldl_cons, List.foldl_nil]
    norm_num
  have h3 : 0 ≤ listMax (bodyA.fixtures.flatMap (specYHighs bodyA.xf)) := by
    simp only [bodyA, List.flatMap_cons, List.flatMap_nil, specYHighs, b2Mul,
      List.append_nil, listMax, List.headI, List.foldl_cons, List.foldl_nil]
    norm_num
  have h4 : listMin (bodyA.fixtures.flatMap (specXLows bodyA.xf)) ≤ FLT_MAX := by
    simp only [bodyA, List.flatMap_cons, List.flatMap_nil, specXLows, b2Mul,
      List.append_nil, listMin, List.headI, List.foldl_cons, List.foldl_nil]
    norm_num [FLT_MAX]
  have h5 : listMin (bodyA.fixtures.flatMap (specYLows bodyA.xf)) ≤ FLT_MAX := by
    simp only [bodyA, List.flatMap_cons, List.flatMap_nil, specYLows, b2Mul,
      List.append_nil, listMin, List.headI, List.foldl_cons, List.foldl_nil]
    norm_num [FLT_MAX]
  exact ⟨h1, h2, h3, h4, h5, calcBodyBounds_tight_of_nonneg 100 bodyA h1 h2 h3 h4 h5⟩

/-- Claim C2: for any body built from a nonempty stroke whose points have
nonnegative screen coordinates (and a positive brush radius), the sprite
anchor computed from the brush-radius-inflated bounds rectangle lies in
the unit square. -/
theorem spriteAnchor_in_unit_square (r bh winH : ℝ) (pts : List Point)
    (hr : 0 < r) (hne : pts ≠ [])
    (hview : ∀ p ∈ pts, 0 ≤ p.1 ∧ 0 ≤ p.2) :
    0 ≤ (spriteAnchor r winH (CreatePhysicsBody r bh pts)).1 ∧
    (spriteAnchor r winH (CreatePhysicsBody r bh pts)).1 ≤ 1 ∧
    0 ≤ (spriteAnchor r winH (CreatePhysicsBody r bh pts)).2 ∧
    (spriteAnchor r winH (CreatePhysicsBody r bh pts)).2 ≤ 1 := by
  obtain ⟨p0, rest, rfl⟩ := List.exists_cons_of_ne_nil hne
  have hxf : (CreatePhysicsBody r bh (p0 :: rest)).xf =
      ⟨SCREEN_TO_WORLD p0.1, SCREEN_TO_WORLD p0.2, 0, 1⟩ := by
    simp [CreatePhysicsBody]
  have hheadmem : AddSphereFixture r (SCREEN_TO_WORLD p0.1, SCREEN_TO_WORLD p0.2) p0 ∈
      (CreatePhysicsBody r bh (p0 :: rest)).fixtures := by
    simp [CreatePhysicsBody]
  have hmemLx : SCREEN_TO_WORLD p0.1 - SCREEN_TO_WORLD r ∈
      (CreatePhysicsBody r bh (p0 :: rest)).fixtures.flatMap
        (specXLows (CreatePhysicsBody r bh (p0 :: rest)).xf) := by
    refine List.mem_flatMap.2 ⟨_, hheadmem, ?_⟩
    simp only [specXLows, AddSphereFixture, b2Mul, hxf, List.mem_singleton]
    ring
  have hmemHx : SCREEN_TO_WORLD p0.1 + SCREEN_TO_WORLD r ∈
      (CreatePhysicsBody r bh (p0 :: rest)).fixtures.flatMap
        (specXHighs (CreatePhysicsBody r bh (p0 :: rest)).xf) := by
    refine List.mem_flatMap.2 ⟨_, hheadmem, ?_⟩
    simp only [specXHighs, AddSphereFixture, b2Mul, hxf, List.mem_singleton]
    ring
  have hmemLy : SCREEN_TO_WORLD p0.2 - SCREEN_TO_WORLD r ∈
      (CreatePhysicsBody r bh (p0 :: rest)).fixtures.flatMap
        (specYLows (CreatePhysicsBody r bh (p0 :: rest)).xf) := by
    refine List.mem_flatMap.2 ⟨_, hheadmem, ?_⟩
    simp only [specYLows, AddSphereFixture, b2Mul, hxf, List.mem_singleton]
    ring
  have hmemHy : SCREEN_TO_WORLD p0.2 + SCREEN_TO_WORLD r ∈
      (CreatePhysicsBody r bh (p0 :: rest)).fixtures.flatMap
        (specYHighs (CreatePhysicsBody r bh (p0 :: rest)).xf) := by
    refine List.mem_flatMap.2 ⟨_, hheadmem, ?_⟩
    simp only [specYHighs, AddSphereFixture, b2Mul, hxf, List.mem_singleton]
    ring
  have hfold := boundsFold_eq (CreatePhysicsBody r bh (p0 :: rest)).xf
    (CreatePhysicsBody r bh (p0 :: rest)).fixtures ⟨FLT_MAX, 0, FLT_MAX, 0⟩
  have hminX : (boundsOfBody (CreatePhysicsBody r bh (p0 :: rest))).minX ≤
      SCREEN_TO_WORLD p0.1 - SCREEN_TO_WORLD r := by
    rw [boundsOfBody, hfold]
    exact foldl_min_le_of_mem _ _ _ hmemLx
  have hmaxX : SCREEN_TO_WORLD p0.1 + SCREEN_TO_WORLD r ≤
      (boundsOfBody (CreatePhysicsBody r bh (p0 :: rest))).maxX := by
    rw [boundsOfBody, hfold]
    exact le_foldl_max_of_mem _ _ _ hmemHx
  have hminY : (boundsOfBody (CreatePhysicsBody r bh (p0 :: rest))).minY ≤
      SCREEN_TO_WORLD p0.2 - SCREEN_TO_WORLD r := by
    rw [boundsOfBody, hfold]
    exact foldl_min_le_of_mem _ _ _ hmemLy
  have hmaxY : SCREEN_TO_WORLD p0.2 + SCREEN_TO_WORLD r ≤
      (boundsOfBody (CreatePhysicsBody r bh (p0 :: rest))).maxY := by
    rw [boundsOfBody, hfold]
    exact le_foldl_max_of_mem _ _ _ hmemHy
  simp only [SCREEN_TO_WORLD, PTM_RATIO] at hminX hmaxX hminY hmaxY
  have c1 : (boundsOfBody (CreatePhysicsBody r bh (p0 :: rest))).minX * 32 ≤ p0.1 - r := by
    linarith
  have c2 : p0.1 + r ≤ (boundsOfBody (CreatePhysicsBody r bh (p0 :: rest))).maxX * 32 := by
    linarith
  have c3 : (boundsOfBody (CreatePhysicsBody r bh (p0 :: rest))).minY * 32 ≤ p0.2 - r := by
    linarith
  have c4 : p0.2 + r ≤ (boundsOfBody (CreatePhysicsBody r bh (p0 :: rest))).maxY * 32 := by
    linarith
  simp only [spriteAnchor, inflatedRect, CalcBodyBounds, WORLD_TO_SCREEN, SCREEN_TO_WORLD,
    PTM_RATIO, hxf]
  have hbx : (p0.1 / 32 : ℝ) * 32 = p0.1 := by ring
  have hby : (p0.2 / 32 : ℝ) * 32 = p0.2 := by ring
  have hdenx : (0:ℝ) < (boundsOfBody (CreatePhysicsBody r bh (p0 :: rest))).maxX * 32 -
      (boundsOfBody (CreatePhysicsBody r bh (p0 :: rest))).minX * 32 + r := by
    linarith
  have hdeny : (0:ℝ) < (boundsOfBody (CreatePhysicsBody r bh (p0 :: rest))).maxY * 32 -
      (boundsOfBody (CreatePhysicsBody r bh (p0 :: rest))).minY * 32 + r := by
    linarith
  refine ⟨?_, ?_, ?_, ?_⟩
  · apply div_nonneg _ (le_of_lt hdenx)
    rw [hbx]
    linarith
  · rw [div_le_one hdenx, hbx]
    linarith
  · apply div_nonneg _ (le_of_lt hdeny)
    rw [hby]
    linarith
  · rw [div_le_one hdeny, hby]
    linarith

/-- Witness for the anchor claim on the one-point stroke (10, 20) with brush
radius 2 and viewport height 100. -/
theorem spriteAnchor_in_unit_square_witness :
    (0:ℝ) < 2 ∧ ([((10:ℝ), (20:ℝ))] : List Point) ≠ [] ∧
    (∀ p ∈ ([((10:ℝ), (20:ℝ))] : List Point), 0 ≤ p.1 ∧ 0 ≤ p.2) ∧
    0 ≤ (spriteAnchor 2 100 (CreatePhysicsBody 2 1 [((10:ℝ), (20:ℝ))])).1 ∧
    (spriteAnchor 2 100 (CreatePhysicsBody 2 1 [((10:ℝ), (20:ℝ))])).1 ≤ 1 ∧
    0 ≤ (spriteAnchor 2 100 (CreatePhysicsBody 2 1 [((10:ℝ), (20:ℝ))])).2 ∧
    (spriteAnchor 2 100 (CreatePhysicsBody 2 1 [((10:ℝ), (20:ℝ))])).2 ≤ 1 := by
  have hr : (0:ℝ) < 2 := by norm_num
  have hne : ([((10:ℝ), (20:ℝ))] : List Point) ≠ [] := by simp
  have hv : ∀ p ∈ ([((10:ℝ), (20:ℝ))] : List Point), 0 ≤ p.1 ∧ 0 ≤ p.2 := by
    intro p hp
    simp only [List.mem_singleton] at hp
    subst hp
    norm_num
  have h := spriteAnchor_in_unit_square 2 1 100 [((10:ℝ), (20:ℝ))] hr hne hv
  exact ⟨hr, hne, hv, h.1, h.2.1, h.2.2.1, h.2.2.2⟩

end
